import Mathlib

/-!
Shallow embedding of the Dominus AI context manager
(`src/services/context_manager.py`) and proofs about the claims of the
specification.  Times and message ids are supplied to every operation as
explicit parameters (the Python code draws them from `time.time()` and
`uuid.uuid4()`); the float factor 1.3 of the token heuristic is modelled
exactly as the rational 13/10 by working with costs scaled by 10.
-/

namespace Dominus

/-- Scan counting maximal non-whitespace runs: `inWord` records whether
the previous character was part of a word. -/
def countWordsAux : List Char → Bool → Nat → Nat
  | [], _, n => n
  | c :: rest, inWord, n =>
    if c.isWhitespace then countWordsAux rest false n
    else if inWord then countWordsAux rest true n
    else countWordsAux rest true (n + 1)

/-- Number of words of a string in the sense of Python `len(s.split())`:
maximal whitespace-separated runs, leading/trailing whitespace ignored. -/
def wordCount (s : String) : Nat :=
  countWordsAux s.toList false 0

/-- `Message` dataclass: role, content, timestamp, optional token count and
the generated id (`uuid.uuid4()` in `__post_init__`, supplied here as an
explicit argument).  The unused `metadata` field is omitted. -/
structure Message where
  role : String
  content : String
  timestamp : Nat
  tokens : Option Nat := none
  message_id : String := ""
  deriving Repr, DecidableEq

/-- Estimated cost of a message, scaled by 10: Python
`msg.tokens or len(msg.content.split()) * 1.3` — a stored count of `0` is
falsy and falls back to the word-count heuristic. -/
def msgCostX10 (m : Message) : Nat :=
  match m.tokens with
  | some t => if t ≠ 0 then 10 * t else 13 * wordCount m.content
  | none => 13 * wordCount m.content

/-- `Conversation` dataclass.  The unused `metadata` field is omitted;
`context_tokens` is the opaque Ollama continuation state. -/
structure Conversation where
  session_id : String
  messages : List Message
  created_at : Nat
  updated_at : Nat
  total_tokens : Nat := 0
  context_tokens : Option (List Nat) := none
  deriving Repr, DecidableEq

/-- `Conversation.add_message`: build the message, append it, bump
`updated_at`, and add `tokens` to the running total when truthy
(`if tokens:` — `None` and `0` are both falsy). -/
def Conversation.add_message (c : Conversation) (role content : String)
    (tokens : Option Nat) (now : Nat) (msgId : String) : Message × Conversation :=
  let msg : Message :=
    { role := role, content := content, timestamp := now,
      tokens := tokens, message_id := msgId }
  let total :=
    match tokens with
    | some t => if t ≠ 0 then c.total_tokens + t else c.total_tokens
    | none => c.total_tokens
  (msg, { c with messages := c.messages ++ [msg],
                 updated_at := now,
                 total_tokens := total })

/-- The selection loop of `get_context_window`, acting on the reversed
message list (newest first): accumulate while the running cost fits the
budget and stop at the first overflow (`break`). -/
def windowRevX10 (maxX10 : Nat) : List Message → Nat → List Message
  | [], _ => []
  | m :: rest, acc =>
    if acc + msgCostX10 m > maxX10 then []
    else m :: windowRevX10 maxX10 rest (acc + msgCostX10 m)

/-- `Conversation.get_context_window`: walk from newest to oldest, keep
messages while they fit in `max_tokens`, return them in chronological
order (the Python loop builds the result with `result.insert(0, msg)`). -/
def Conversation.get_context_window (c : Conversation) (max_tokens : Nat) : List Message :=
  (windowRevX10 (10 * max_tokens) c.messages.reverse 0).reverse

/-- String-keyed partial maps model the in-memory dict, the sqlite table
and the redis keyspace. -/
abbrev SMap (α : Type) : Type := String → Option α

def SMap.empty {α : Type} : SMap α := fun _ => none

def SMap.update {α : Type} (m : SMap α) (k : String) (v : α) : SMap α :=
  fun x => if x = k then some v else m x

/-- A redis value written with `setex`: payload plus absolute expiry time. -/
structure RedisEntry (α : Type) where
  value : α
  expiry : Nat
  deriving Repr, DecidableEq

/-- Redis keyspace used by the manager: `session:{id}` entries (serialized
conversations) and `session:{id}:tokens` entries (continuation state). -/
structure RedisState where
  sessions : SMap (RedisEntry Conversation)
  tokens : SMap (RedisEntry (List Nat))

/-- Read a `setex`-written key: the value is visible while `now < expiry`. -/
def redisRead {α : Type} (m : SMap (RedisEntry α)) (k : String) (now : Nat) : Option α :=
  match m k with
  | some e => if now < e.expiry then some e.value else none
  | none => none

/-- `ContextManager` state: configuration, the in-memory conversation map,
the sqlite table (one serialized conversation per session id, the row's
`updated_at` column always equal to the stored conversation's), and the
optional redis connection. -/
structure ManagerState where
  max_context_tokens : Nat := 6000
  max_messages : Nat := 50
  session_ttl : Nat := 86400
  conversations : SMap Conversation := SMap.empty
  db : SMap Conversation := SMap.empty
  redis : Option RedisState := none

namespace ContextManager

/-- `_save_conversation`: upsert the serialized conversation into sqlite,
keyed by its session id. -/
def save_conversation (s : ManagerState) (c : Conversation) : ManagerState :=
  { s with db := s.db.update c.session_id c }

/-- Mirror a freshly created session into redis with `setex`
(`session:{id}`, ttl `session_ttl`), when redis is available. -/
def redisSetSession (s : ManagerState) (sid : String) (c : Conversation) (now : Nat) :
    ManagerState :=
  match s.redis with
  | some r =>
      { s with redis := some { r with
          sessions := r.sessions.update sid ⟨c, now + s.session_ttl⟩ } }
  | none => s

/-- `create_session`: build an empty conversation under a fresh id (the
uuid is supplied as `newSid`), insert it in memory, persist it, and mirror
it into redis. -/
def create_session (s : ManagerState) (newSid : String) (now : Nat) :
    String × ManagerState :=
  let conv : Conversation :=
    { session_id := newSid, messages := [], created_at := now, updated_at := now }
  let s1 := { s with conversations := s.conversations.update newSid conv }
  let s2 := save_conversation s1 conv
  (newSid, redisSetSession s2 newSid conv now)

/-- The database third of `session_exists`: look the id up in sqlite and
promote a hit into memory. -/
def dbLookupPromote (s : ManagerState) (sid : String) : Bool × ManagerState :=
  match s.db sid with
  | some conv => (true, { s with conversations := s.conversations.update sid conv })
  | none => (false, s)

/-- `session_exists`: three-tier lookup — memory, then redis (promoting a
hit into memory), then sqlite (promoting a hit into memory). -/
def session_exists (s : ManagerState) (sid : String) (now : Nat) :
    Bool × ManagerState :=
  match s.conversations sid with
  | some _ => (true, s)
  | none =>
    match s.redis with
    | some r =>
      match redisRead r.sessions sid now with
      | some conv => (true, { s with conversations := s.conversations.update sid conv })
      | none => dbLookupPromote s sid
    | none => dbLookupPromote s sid

/-- `get_or_create_session`: `if session_id and self.session_exists(...)`
— an empty (falsy) id short-circuits to creation without the lookup. -/
def get_or_create_session (s : ManagerState) (sid? : Option String) (now : Nat)
    (freshSid : String) : String × ManagerState :=
  match sid? with
  | some sid =>
    if sid ≠ "" then
      match session_exists s sid now with
      | (true, s1) => (sid, s1)
      | (false, s1) => create_session s1 freshSid now
    else create_session s freshSid now
  | none => create_session s freshSid now

/-- Python list slice `l[-n:]`; for `n = 0` the slice `[-0:]` is `[0:]`,
the whole list. -/
def pyLastSlice {α : Type} (n : Nat) (l : List α) : List α :=
  if n = 0 then l else l.drop (l.length - n)

/-- `ContextManager.add_message`: a `ValueError` when the id is not in the
in-memory map (the other tiers are not consulted); otherwise append via
`Conversation.add_message`, prune to the last `max_messages` entries when
the list has grown past the maximum, and persist. -/
def add_message (s : ManagerState) (sid role content : String) (tokens : Option Nat)
    (now : Nat) (msgId : String) : Except String (Message × ManagerState) :=
  match s.conversations sid with
  | none => .error ("Session " ++ sid ++ " not found")
  | some conv =>
    let mc := conv.add_message role content tokens now msgId
    let conv2 :=
      if mc.2.messages.length > s.max_messages then
        { mc.2 with messages := pyLastSlice s.max_messages mc.2.messages }
      else mc.2
    let s1 := { s with conversations := s.conversations.update sid conv2 }
    .ok (mc.1, save_conversation s1 conv2)

/-- Effective budget of `get_context`:
`max_tokens = max_tokens or self.max_context_tokens` — omitted or zero
falls back to the configured ceiling. -/
def effectiveMaxTokens (s : ManagerState) (mt : Option Nat) : Nat :=
  match mt with
  | some m => if m ≠ 0 then m else s.max_context_tokens
  | none => s.max_context_tokens

/-- `get_context`: empty list for an id not in memory, else the
conversation's context window under the effective budget.  Read-only. -/
def get_context (s : ManagerState) (sid : String) (mt : Option Nat) : List Message :=
  match s.conversations sid with
  | none => []
  | some conv => conv.get_context_window (effectiveMaxTokens s mt)

/-- `update_context_tokens`: on a live (in-memory) session, store the
opaque continuation state, persist, and cache it in redis under
`session:{id}:tokens` with a fixed 3600-second ttl; silently a no-op on an
unknown session.  `updated_at` is not touched. -/
def update_context_tokens (s : ManagerState) (sid : String) (ctx : List Nat)
    (now : Nat) : ManagerState :=
  match s.conversations sid with
  | some conv =>
    let conv1 := { conv with context_tokens := some ctx }
    let s1 := { s with conversations := s.conversations.update sid conv1 }
    let s2 := save_conversation s1 conv1
    match s2.redis with
    | some r =>
        { s2 with redis := some { r with tokens := r.tokens.update sid ⟨ctx, now + 3600⟩ } }
    | none => s2
  | none => s

/-- `get_context_tokens`: the memory branch fires only when the stored
list is truthy (`if conv.context_tokens:` — `None` and `[]` are falsy);
otherwise fall through to the redis key, whose serialized payload is a
non-empty string even for the empty list, and finally to `None`. -/
def get_context_tokens (s : ManagerState) (sid : String) (now : Nat) :
    Option (List Nat) :=
  let memHit : Option (List Nat) :=
    match s.conversations sid with
    | some conv =>
      match conv.context_tokens with
      | some l => if l ≠ [] then some l else none
      | none => none
    | none => none
  match memHit with
  | some l => some l
  | none =>
    match s.redis with
    | some r => redisRead r.tokens sid now
    | none => none

/-- The history loop of `build_prompt_with_context`: user and assistant
messages are rendered, any other role is skipped (no `else` branch). -/
def renderHistory : List Message → List String
  | [] => []
  | m :: rest =>
    if m.role = "user" then ("User: " ++ m.content) :: renderHistory rest
    else if m.role = "assistant" then ("Assistant: " ++ m.content) :: renderHistory rest
    else renderHistory rest

/-- `build_prompt_with_context`: optional system part (note the trailing
newline of `f"System: {system_prompt}\n"`, and that an empty system prompt
is falsy and skipped), rendered history, the new user message, the
`"Assistant:"` marker, joined by `"\n\n"`. -/
def build_prompt_with_context (s : ManagerState) (sid : String) (user_message : String)
    (system_prompt : Option String) : String :=
  let context := get_context s sid none
  let sysParts : List String :=
    match system_prompt with
    | some p => if p ≠ "" then ["System: " ++ p ++ "\n"] else []
    | none => []
  String.intercalate "\n\n"
    (sysParts ++ renderHistory context ++ ["User: " ++ user_message, "Assistant:"])

/-- First half of `cleanup_old_sessions`: drop every in-memory
conversation with `updated_at < now - session_ttl`. -/
def memCleanup (s : ManagerState) (now : Nat) : ManagerState :=
  { s with conversations := fun sid =>
      match s.conversations sid with
      | some c => if c.updated_at < now - s.session_ttl then none else some c
      | none => none }

/-- Second half of `cleanup_old_sessions`: the sql
`DELETE FROM conversations WHERE updated_at < ?` with the same cutoff. -/
def dbCleanup (s : ManagerState) (now : Nat) : ManagerState :=
  { s with db := fun sid =>
      match s.db sid with
      | some c => if c.updated_at < now - s.session_ttl then none else some c
      | none => none }

/-- `cleanup_old_sessions`: in-memory deletion first, then the database
deletion; redis is not touched. -/
def cleanup_old_sessions (s : ManagerState) (now : Nat) : ManagerState :=
  dbCleanup (memCleanup s now) now

/-- Record returned by `get_session_info` (the two timestamps are returned
as such; the iso-format rendering is injective and not modelled). -/
structure SessionInfo where
  session_id : String
  message_count : Nat
  total_tokens : Nat
  created_at : Nat
  updated_at : Nat
  deriving Repr, DecidableEq

/-- `get_session_info`: `None` for an id not in memory, else the summary
record. -/
def get_session_info (s : ManagerState) (sid : String) : Option SessionInfo :=
  match s.conversations sid with
  | none => none
  | some conv =>
      some ⟨sid, conv.messages.length, conv.total_tokens, conv.created_at, conv.updated_at⟩

/-- The constructor's `_load_active_sessions`: start from a pre-existing
database and load into memory exactly the rows with
`updated_at > now - session_ttl` (rows written by `_save_conversation`
are keyed by their conversation's session id). -/
def initManager (maxCtx maxMsgs ttl : Nat) (db0 : SMap Conversation)
    (redis0 : Option RedisState) (now : Nat) : ManagerState :=
  { max_context_tokens := maxCtx, max_messages := maxMsgs, session_ttl := ttl,
    conversations := fun sid =>
      match db0 sid with
      | some c => if now - ttl < c.updated_at then some c else none
      | none => none,
    db := db0, redis := redis0 }

end ContextManager

/-- One mutating call at the manager boundary; read-only calls do not
change the state and are omitted. -/
inductive Op where
  | create (newSid : String)
  | getOrCreate (sid? : Option String) (freshSid : String)
  | checkExists (sid : String)
  | addMsg (sid role content : String) (tokens : Option Nat) (msgId : String)
  | updateCtxTokens (sid : String) (ctx : List Nat)
  | cleanup

/-- State transition of one operation performed at time `now` (a failing
`add_message` raises and leaves the state unchanged). -/
def step (s : ManagerState) (op : Op) (now : Nat) : ManagerState :=
  match op with
  | .create newSid => (ContextManager.create_session s newSid now).2
  | .getOrCreate sid? freshSid => (ContextManager.get_or_create_session s sid? now freshSid).2
  | .checkExists sid => (ContextManager.session_exists s sid now).2
  | .addMsg sid role content tokens msgId =>
      match ContextManager.add_message s sid role content tokens now msgId with
      | .ok ms => ms.2
      | .error _ => s
  | .updateCtxTokens sid ctx => ContextManager.update_context_tokens s sid ctx now
  | .cleanup => ContextManager.cleanup_old_sessions s now

/-- A session id resolves in some tier (memory, redis cache, or sqlite). -/
def resolvable (s : ManagerState) (sid : String) (now : Nat) : Bool :=
  (s.conversations sid).isSome ||
  (match s.redis with
   | some r => (redisRead r.sessions sid now).isSome
   | none => false) ||
  (s.db sid).isSome

/-- Sum of the stored per-message token counts, unknown counts as zero. -/
def msgTokensSum (l : List Message) : Nat :=
  (l.map (fun m => m.tokens.getD 0)).sum

/-- Sum of the scaled estimated costs of a list of messages. -/
def costSumX10 (l : List Message) : Nat :=
  (l.map msgCostX10).sum

theorem costSumX10_nil : costSumX10 [] = 0 := rfl

theorem costSumX10_cons (m : Message) (l : List Message) :
    costSumX10 (m :: l) = msgCostX10 m + costSumX10 l := by
  simp [costSumX10]

theorem costSumX10_reverse (l : List Message) :
    costSumX10 l.reverse = costSumX10 l := by
  simp [costSumX10, List.sum_reverse]

/-- Characterisation of the selection loop: starting with an accumulated
cost within budget, it returns some initial segment `take k` of its input
(the reversed history), the accumulated total stays within budget, and it
stops either at the end of the input or at the first element that would
overflow. -/
theorem windowRevX10_spec (maxX10 : Nat) :
    ∀ (l : List Message) (acc : Nat), acc ≤ maxX10 →
      ∃ k, windowRevX10 maxX10 l acc = l.take k ∧
        acc + costSumX10 (l.take k) ≤ maxX10 ∧
        (l.drop k = [] ∨
          ∃ m rest, l.drop k = m :: rest ∧
            maxX10 < acc + costSumX10 (l.take k) + msgCostX10 m) := by
  intro l
  induction l with
  | nil =>
    intro acc hacc
    exact ⟨0, rfl, by simpa [costSumX10] using hacc, Or.inl rfl⟩
  | cons m rest ih =>
    intro acc hacc
    by_cases hov : acc + msgCostX10 m > maxX10
    · refine ⟨0, ?_, ?_, ?_⟩
      · simp [windowRevX10, hov]
      · simpa [costSumX10] using hacc
      · exact Or.inr ⟨m, rest, rfl, by simpa [costSumX10] using hov⟩
    · obtain ⟨k, hw, hsum, hstop⟩ := ih (acc + msgCostX10 m) (Nat.le_of_not_lt hov)
      refine ⟨k + 1, ?_, ?_, ?_⟩
      · simp [windowRevX10, hov, hw]
      · simp only [List.take_succ_cons, costSumX10_cons]
        omega
      · rcases hstop with h0 | ⟨m2, rest2, heq, hlt⟩
        · exact Or.inl (by simpa using h0)
        · refine Or.inr ⟨m2, rest2, by simpa using heq, ?_⟩
          simp only [List.take_succ_cons, costSumX10_cons]
          omega

/-- The context window is a chronological suffix of the history, its total
estimated cost fits the budget, and the first excluded (next older)
message, when one exists, would overflow the budget. -/
theorem get_context_window_spec (c : Conversation) (mt : Nat) :
    ∃ pre, c.messages = pre ++ c.get_context_window mt ∧
      costSumX10 (c.get_context_window mt) ≤ 10 * mt ∧
      (pre = [] ∨ ∃ p m, pre = p ++ [m] ∧
        10 * mt < costSumX10 (c.get_context_window mt) + msgCostX10 m) := by
  obtain ⟨k, hw, hsum, hstop⟩ :=
    windowRevX10_spec (10 * mt) c.messages.reverse 0 (Nat.zero_le _)
  have hres : c.get_context_window mt = (c.messages.reverse.take k).reverse := by
    simp [Conversation.get_context_window, hw]
  have hcost : costSumX10 (c.get_context_window mt)
      = costSumX10 (c.messages.reverse.take k) := by
    rw [hres, costSumX10_reverse]
  refine ⟨(c.messages.reverse.drop k).reverse, ?_, ?_, ?_⟩
  · rw [hres]
    rw [← List.reverse_append, List.take_append_drop, List.reverse_reverse]
  · rw [hcost]; simpa using hsum
  · rcases hstop with h0 | ⟨m, rest, heq, hlt⟩
    · exact Or.inl (by simp [h0])
    · refine Or.inr ⟨rest.reverse, m, by simp [heq], ?_⟩
      rw [hcost]; omega

/-- C1 (amended): for every live session and budget, `get_context`
returns a contiguous suffix of the session's message list in
chronological order, selected by walking from the newest message backward
and stopping at the first message whose cost would overflow the budget;
the total estimated cost (stored token count when present and non-zero,
else word count × 1.3) never exceeds the effective budget, which is
`max_tokens` when supplied and non-zero, and the configured manager-wide
ceiling when `max_tokens` is omitted — or supplied as `0`, which the
Python `max_tokens or self.max_context_tokens` also replaces by the
ceiling. -/
theorem get_context_suffix_budget
    (s : ManagerState) (sid : String) (mt : Option Nat) (conv : Conversation)
    (h : s.conversations sid = some conv) :
    ∃ pre, conv.messages = pre ++ ContextManager.get_context s sid mt ∧
      costSumX10 (ContextManager.get_context s sid mt)
        ≤ 10 * ContextManager.effectiveMaxTokens s mt ∧
      (pre = [] ∨ ∃ p m, pre = p ++ [m] ∧
        10 * ContextManager.effectiveMaxTokens s mt
          < costSumX10 (ContextManager.get_context s sid mt) + msgCostX10 m) := by
  have hg : ContextManager.get_context s sid mt
      = conv.get_context_window (ContextManager.effectiveMaxTokens s mt) := by
    simp [ContextManager.get_context, h]
  rw [hg]
  exact get_context_window_spec conv (ContextManager.effectiveMaxTokens s mt)

def msgC1 : Message :=
  { role := "user", content := "hello", timestamp := 1, tokens := some 4, message_id := "m1" }

def convC1 : Conversation :=
  { session_id := "s", messages := [msgC1], created_at := 1, updated_at := 1 }

def stC1 : ManagerState :=
  { conversations := SMap.empty.update "s" convC1 }

/-- C1 counterexample: at the explicit budget `max_tokens = 0` the Python
`max_tokens or self.max_context_tokens` replaces `0` by the 6000 ceiling,
so the stored 4-token message is returned and the total estimated cost
exceeds the requested budget — the claim's bound fails at this budget. -/
theorem get_context_zero_budget_exceeds :
    ContextManager.get_context stC1 "s" (some 0) = [msgC1] ∧
    10 * 0 < costSumX10 (ContextManager.get_context stC1 "s" (some 0)) := by
  decide

/-- Witness for C1 at a concrete state and budget. -/
theorem get_context_suffix_budget_witness :
    ∃ pre, convC1.messages = pre ++ ContextManager.get_context stC1 "s" (some 7) ∧
      costSumX10 (ContextManager.get_context stC1 "s" (some 7))
        ≤ 10 * ContextManager.effectiveMaxTokens stC1 (some 7) ∧
      (pre = [] ∨ ∃ p m, pre = p ++ [m] ∧
        10 * ContextManager.effectiveMaxTokens stC1 (some 7)
          < costSumX10 (ContextManager.get_context stC1 "s" (some 7)) + msgCostX10 m) :=
  get_context_suffix_budget stC1 "s" (some 7) convC1 (by decide)

/-- Length of a session's in-memory message list (0 when absent). -/
def msgLenAt (s : ManagerState) (sid : String) : Nat :=
  match s.conversations sid with
  | some c => c.messages.length
  | none => 0

/-- C2 (amended): when the configured maximum is positive, every
successful `add_message` leaves the session's message list with length at
most the maximum and the retained messages are exactly the most recently
appended ones in insertion order — the new list is the old list plus the
new message with the overflow dropped from the front.  (At a configured
maximum of 0 the prune slice `messages[-0:]` is `messages[0:]`, the whole
list, and no truncation happens.) -/
theorem add_message_fifo_truncation
    (s : ManagerState) (sid role content : String) (tokens : Option Nat)
    (now : Nat) (msgId : String) (conv : Conversation)
    (hmax : 0 < s.max_messages)
    (hconv : s.conversations sid = some conv)
    (hlen : conv.messages.length ≤ s.max_messages) :
    ∃ msg s' conv',
      ContextManager.add_message s sid role content tokens now msgId = .ok (msg, s') ∧
      s'.conversations sid = some conv' ∧
      conv'.messages
        = (conv.messages ++ [msg]).drop (conv.messages.length + 1 - s.max_messages) ∧
      conv'.messages.length ≤ s.max_messages := by
  classical
  have hm2 : (conv.add_message role content tokens now msgId).2.messages
      = conv.messages ++ [(conv.add_message role content tokens now msgId).1] := rfl
  have hlen2 : (conv.add_message role content tokens now msgId).2.messages.length
      = conv.messages.length + 1 := by rw [hm2]; simp
  simp only [ContextManager.add_message, hconv]
  split
  · rename_i hgt
    have hn : conv.messages.length = s.max_messages := by omega
    refine ⟨_, _,
      { (conv.add_message role content tokens now msgId).2 with
        messages := ContextManager.pyLastSlice s.max_messages
          (conv.add_message role content tokens now msgId).2.messages },
      rfl, ?_, ?_, ?_⟩
    · simp [ContextManager.save_conversation, SMap.update]
    · show ContextManager.pyLastSlice s.max_messages
          (conv.add_message role content tokens now msgId).2.messages = _
      rw [ContextManager.pyLastSlice, if_neg (by omega), hm2]
      congr 1
      · rw [← hm2, hlen2]
    · show (ContextManager.pyLastSlice s.max_messages
          (conv.add_message role content tokens now msgId).2.messages).length ≤ _
      rw [ContextManager.pyLastSlice, if_neg (by omega), List.length_drop, hlen2]
      omega
  · rename_i hgt
    refine ⟨_, _, (conv.add_message role content tokens now msgId).2, rfl, ?_, ?_, ?_⟩
    · simp [ContextManager.save_conversation, SMap.update]
    · rw [hm2]
      have h0 : conv.messages.length + 1 - s.max_messages = 0 := by omega
      rw [h0, List.drop_zero]
    · omega

def convC2 : Conversation :=
  { session_id := "s",
    messages := [{ role := "user", content := "a", timestamp := 1, message_id := "m1" },
                 { role := "assistant", content := "b", timestamp := 2, message_id := "m2" }],
    created_at := 1, updated_at := 2 }

def stC2 : ManagerState :=
  { max_messages := 2, conversations := SMap.empty.update "s" convC2 }

def stC2zero : ManagerState :=
  { max_messages := 0,
    conversations := SMap.empty.update "s"
      { session_id := "s", messages := [], created_at := 0, updated_at := 0 } }

/-- C2 counterexample: with the configured maximum set to 0, one
`add_message` leaves a list of length 1 > 0 — `messages[-0:]` keeps the
whole list, so the claimed bound by the configured maximum fails. -/
theorem add_message_zero_max_no_truncation :
    stC2zero.max_messages = 0 ∧
    msgLenAt (step stC2zero (.addMsg "s" "user" "hi" (some 2) "m1") 5) "s" = 1 := by
  decide

/-- Witness for C2 at a concrete full session: the third append drops the
oldest message. -/
theorem add_message_fifo_truncation_witness :
    ∃ msg s' conv',
      ContextManager.add_message stC2 "s" "user" "c" none 3 "m3" = .ok (msg, s') ∧
      s'.conversations "s" = some conv' ∧
      conv'.messages
        = (convC2.messages ++ [msg]).drop (convC2.messages.length + 1 - stC2.max_messages) ∧
      conv'.messages.length ≤ stC2.max_messages :=
  add_message_fifo_truncation stC2 "s" "user" "c" none 3 "m3" convC2
    (by decide) (by decide) (by decide)

/-- Whether a fallible call succeeded. -/
def exceptIsOk {ε α : Type} : Except ε α → Bool
  | .ok _ => true
  | .error _ => false

/-- C3 (amended): `add_message` raises exactly when the session id is not
in the manager's in-memory map — a session resolvable only in the
fast-path cache or durable store is not consulted (callers are expected
to promote it via `session_exists` or `get_or_create_session` first); on
an in-memory session the call succeeds and returns the newly created
message carrying the supplied generated identifier. -/
theorem add_message_memory_only_error
    (s : ManagerState) (sid role content : String) (tokens : Option Nat)
    (now : Nat) (msgId : String) :
    (s.conversations sid = none →
      ContextManager.add_message s sid role content tokens now msgId
        = .error ("Session " ++ sid ++ " not found")) ∧
    (∀ conv, s.conversations sid = some conv →
      ∃ s', ContextManager.add_message s sid role content tokens now msgId
        = .ok ({ role := role, content := content, timestamp := now,
                 tokens := tokens, message_id := msgId }, s')) := by
  constructor
  · intro h
    simp [ContextManager.add_message, h]
  · intro conv h
    simp only [ContextManager.add_message, h]
    exact ⟨_, rfl⟩

def convC3 : Conversation :=
  { session_id := "old", messages := [], created_at := 0, updated_at := 0 }

/-- A manager freshly constructed (ttl 100, at time 1000) over a database
holding a session last updated at time 0: the constructor's
`updated_at > cutoff` load filter skips the row, so the session lives
only in the durable store. -/
def stC3 : ManagerState :=
  ContextManager.initManager 6000 50 100 (SMap.empty.update "old" convC3) none 1000

/-- C3 counterexample: a session held by the durable store is live —
`session_exists` resolves and reports it — yet `add_message` consults
only the in-memory map and raises for it, refuting the claimed
"if and only if". -/
theorem add_message_rejects_db_only_session :
    resolvable stC3 "old" 1000 = true ∧
    (ContextManager.session_exists stC3 "old" 1000).1 = true ∧
    exceptIsOk (ContextManager.add_message stC3 "old" "user" "hi" none 1000 "m1")
      = false := by
  decide

def stC3live : ManagerState :=
  { conversations := SMap.empty.update "s"
      { session_id := "s", messages := [], created_at := 1, updated_at := 1 } }

/-- Witness for C3: the error branch on an unknown id and the success
branch on an in-memory session, at concrete states. -/
theorem add_message_memory_only_error_witness :
    (ContextManager.add_message stC3live "nope" "user" "hi" none 2 "m1"
      = .error ("Session " ++ "nope" ++ " not found")) ∧
    ∃ s', ContextManager.add_message stC3live "s" "user" "hi" none 2 "m1"
      = .ok ({ role := "user", content := "hi", timestamp := 2,
               tokens := none, message_id := "m1" }, s') :=
  ⟨(add_message_memory_only_error stC3live "nope" "user" "hi" none 2 "m1").1 (by decide),
   (add_message_memory_only_error stC3live "s" "user" "hi" none 2 "m1").2
     { session_id := "s", messages := [], created_at := 1, updated_at := 1 } (by decide)⟩

/-- A session's in-memory message list (empty when absent). -/
def msgsAt (s : ManagerState) (sid : String) : List Message :=
  match s.conversations sid with
  | some c => c.messages
  | none => []

/-- A session's in-memory cumulative token count (0 when absent). -/
def totalAt (s : ManagerState) (sid : String) : Nat :=
  match s.conversations sid with
  | some c => c.total_tokens
  | none => 0

/-- C4 (amended): `total_tokens` equals the sum of the known per-message
token counts of the current messages as long as no FIFO truncation has
dropped a message: a single `add_message` call preserves the sum relation
whenever the grown list still fits the configured maximum.  Truncation
drops old messages without decrementing `total_tokens`, so after it the
relation can fail (see the counterexample). -/
theorem total_tokens_sum_without_truncation
    (s : ManagerState) (sid role content : String) (tokens : Option Nat)
    (now : Nat) (msgId : String) (conv : Conversation)
    (hconv : s.conversations sid = some conv)
    (hsum : conv.total_tokens = msgTokensSum conv.messages)
    (hroom : conv.messages.length + 1 ≤ s.max_messages) :
    ∃ msg s' conv',
      ContextManager.add_message s sid role content tokens now msgId = .ok (msg, s') ∧
      s'.conversations sid = some conv' ∧
      conv'.total_tokens = msgTokensSum conv'.messages := by
  classical
  have hm2 : (conv.add_message role content tokens now msgId).2.messages
      = conv.messages ++ [(conv.add_message role content tokens now msgId).1] := rfl
  have hlen2 : (conv.add_message role content tokens now msgId).2.messages.length
      = conv.messages.length + 1 := by rw [hm2]; simp
  simp only [ContextManager.add_message, hconv]
  rw [if_neg (by omega)]
  refine ⟨_, _, (conv.add_message role content tokens now msgId).2, rfl, ?_, ?_⟩
  · simp [ContextManager.save_conversation, SMap.update]
  · show (conv.add_message role content tokens now msgId).2.total_tokens
        = msgTokensSum (conv.add_message role content tokens now msgId).2.messages
    cases tokens with
    | none => simp [Conversation.add_message, msgTokensSum, hsum]
    | some t =>
      cases t with
      | zero => simp [Conversation.add_message, msgTokensSum, hsum]
      | succ n => simp [Conversation.add_message, msgTokensSum, hsum]

def stC4 : ManagerState :=
  { max_messages := 1,
    conversations := SMap.empty.update "s"
      { session_id := "s", messages := [], created_at := 0, updated_at := 0 } }

def stC4after : ManagerState :=
  step (step stC4 (.addMsg "s" "user" "a" (some 5) "m1") 1)
    (.addMsg "s" "user" "b" (some 7) "m2") 2

/-- C4 counterexample: with a configured maximum of 1, appending messages
of 5 and then 7 stored tokens leaves only the second message retained,
yet `total_tokens` is 12, not the sum 7 over the current list — FIFO
truncation never decrements the cumulative count, refuting the claimed
invariant. -/
theorem total_tokens_stale_after_truncation :
    totalAt stC4after "s" = 12 ∧ msgTokensSum (msgsAt stC4after "s") = 7 ∧
    totalAt stC4after "s" ≠ msgTokensSum (msgsAt stC4after "s") := by
  decide

def convC4 : Conversation :=
  { session_id := "s",
    messages := [{ role := "user", content := "a", timestamp := 1,
                   tokens := some 5, message_id := "m1" }],
    created_at := 1, updated_at := 1, total_tokens := 5 }

def stC4room : ManagerState :=
  { max_messages := 50, conversations := SMap.empty.update "s" convC4 }

/-- Witness for C4 at a concrete state with room for the new message. -/
theorem total_tokens_sum_without_truncation_witness :
    ∃ msg s' conv',
      ContextManager.add_message stC4room "s" "assistant" "b" (some 3) 2 "m2"
        = .ok (msg, s') ∧
      s'.conversations "s" = some conv' ∧
      conv'.total_tokens = msgTokensSum conv'.messages :=
  total_tokens_sum_without_truncation stC4room "s" "assistant" "b" (some 3) 2 "m2"
    convC4 (by decide) (by decide) (by decide)

theorem SMap.update_lookup_self {α : Type} (m : SMap α) (k : String) (v : α) :
    m.update k v k = some v := by
  simp [SMap.update]

theorem SMap.update_lookup_ne {α : Type} (m : SMap α) (k : String) (v : α)
    (x : String) (h : x ≠ k) : m.update k v x = m x := by
  simp [SMap.update, h]

theorem save_conversation_conversations (s : ManagerState) (c : Conversation) :
    (ContextManager.save_conversation s c).conversations = s.conversations := rfl

theorem redisSetSession_conversations (s : ManagerState) (sid : String)
    (c : Conversation) (now : Nat) :
    (ContextManager.redisSetSession s sid c now).conversations = s.conversations := by
  cases hr : s.redis <;> simp [ContextManager.redisSetSession, hr]

theorem create_session_conversations (s : ManagerState) (newSid : String) (now : Nat) :
    ((ContextManager.create_session s newSid now).2).conversations
      = s.conversations.update newSid
          { session_id := newSid, messages := [], created_at := now, updated_at := now } := by
  simp [ContextManager.create_session, redisSetSession_conversations,
    save_conversation_conversations]

/-- The three-tier lookup only promotes into keys that were absent from
memory: any key already holding a conversation is untouched. -/
theorem session_exists_conversations_pres (s : ManagerState) (sid : String) (now : Nat)
    (sid2 : String) (c : Conversation) (h : s.conversations sid2 = some c) :
    ((ContextManager.session_exists s sid now).2).conversations sid2 = some c := by
  have hne : s.conversations sid = none → sid2 ≠ sid := by
    intro hm he
    rw [he, hm] at h
    cases h
  cases hm : s.conversations sid with
  | some conv => simp [ContextManager.session_exists, hm, h]
  | none =>
    have hne2 := hne hm
    cases hr : s.redis with
    | none =>
      cases hd : s.db sid with
      | some conv =>
        simp [ContextManager.session_exists, ContextManager.dbLookupPromote, hm, hr, hd,
          SMap.update_lookup_ne _ _ _ _ hne2, h]
      | none =>
        simp [ContextManager.session_exists, ContextManager.dbLookupPromote, hm, hr, hd, h]
    | some r =>
      cases hrr : redisRead r.sessions sid now with
      | some conv =>
        simp [ContextManager.session_exists, hm, hr, hrr,
          SMap.update_lookup_ne _ _ _ _ hne2, h]
      | none =>
        cases hd : s.db sid with
        | some conv =>
          simp [ContextManager.session_exists, ContextManager.dbLookupPromote, hm, hr, hrr,
            hd, SMap.update_lookup_ne _ _ _ _ hne2, h]
        | none =>
          simp [ContextManager.session_exists, ContextManager.dbLookupPromote, hm, hr, hrr,
            hd, h]

theorem create_session_updated_at_mono (s : ManagerState) (newSid : String) (now : Nat)
    (sid : String) (c c' : Conversation) (hc : s.conversations sid = some c)
    (hle : c.updated_at ≤ now)
    (hc' : ((ContextManager.create_session s newSid now).2).conversations sid = some c') :
    c.updated_at ≤ c'.updated_at := by
  rw [create_session_conversations] at hc'
  by_cases hsid : sid = newSid
  · subst hsid
    rw [SMap.update_lookup_self] at hc'
    cases hc'
    simpa using hle
  · rw [SMap.update_lookup_ne _ _ _ _ hsid, hc] at hc'
    cases hc'
    exact Nat.le_refl _

/-- The in-memory map after a successful `add_message`: the session's
conversation is replaced by the grown (and possibly pruned) one, whose
`updated_at` is the call time. -/
theorem add_message_ok_conversations (s : ManagerState) (sid role content : String)
    (tokens : Option Nat) (now : Nat) (msgId : String) (msg : Message)
    (s' : ManagerState)
    (ha : ContextManager.add_message s sid role content tokens now msgId = .ok (msg, s')) :
    ∃ conv2, s'.conversations = s.conversations.update sid conv2 ∧
      conv2.updated_at = now := by
  cases hm : s.conversations sid with
  | none => simp [ContextManager.add_message, hm] at ha
  | some conv =>
    simp only [ContextManager.add_message, hm] at ha
    cases ha
    refine ⟨_, rfl, ?_⟩
    split <;> rfl

/-- The in-memory map after `update_context_tokens` on a live session:
only the continuation state changes; `updated_at` is untouched. -/
theorem update_context_tokens_conversations (s : ManagerState) (sid : String)
    (ctx : List Nat) (now : Nat) (conv : Conversation)
    (hm : s.conversations sid = some conv) :
    (ContextManager.update_context_tokens s sid ctx now).conversations
      = s.conversations.update sid { conv with context_tokens := some ctx } := by
  simp only [ContextManager.update_context_tokens, hm]
  cases hr : s.redis <;> simp [hr, ContextManager.save_conversation]

/-- C5 (amended): `updated_at` is monotonically non-decreasing along every
operation performed at a time not earlier than the conversation's current
`updated_at`, and it is bumped to the current time by every successful
`add_message`; `update_context_tokens`, however, mutates the continuation
state without bumping `updated_at`. -/
theorem updated_at_monotone_and_bumped_by_add :
    (∀ (s : ManagerState) (op : Op) (now : Nat) (sid : String) (c c' : Conversation),
      s.conversations sid = some c → c.updated_at ≤ now →
      (step s op now).conversations sid = some c' →
      c.updated_at ≤ c'.updated_at) ∧
    (∀ (s : ManagerState) (sid role content : String) (tokens : Option Nat)
        (now : Nat) (msgId : String) (msg : Message) (s' : ManagerState)
        (c' : Conversation),
      ContextManager.add_message s sid role content tokens now msgId = .ok (msg, s') →
      s'.conversations sid = some c' →
      c'.updated_at = now) ∧
    (∀ (s : ManagerState) (sid : String) (ctx : List Nat) (now : Nat)
        (c : Conversation),
      s.conversations sid = some c →
      ∃ c', (ContextManager.update_context_tokens s sid ctx now).conversations sid
          = some c' ∧ c'.updated_at = c.updated_at) := by
  refine ⟨?_, ?_, ?_⟩
  · intro s op now sid c c' hc hle hc'
    cases op with
    | create newSid =>
      exact create_session_updated_at_mono s newSid now sid c c' hc hle hc'
    | getOrCreate sid? freshSid =>
      cases sid? with
      | none =>
        exact create_session_updated_at_mono s freshSid now sid c c' hc hle hc'
      | some sid1 =>
        by_cases hemp : sid1 = ""
        · simp only [step, ContextManager.get_or_create_session, hemp] at hc'
          exact create_session_updated_at_mono s freshSid now sid c c' hc hle
            (by simpa using hc')
        · have hpres := session_exists_conversations_pres s sid1 now sid c hc
          rcases hse : ContextManager.session_exists s sid1 now with ⟨b, s1⟩
          rw [hse] at hpres
          simp only [step, ContextManager.get_or_create_session, hemp, hse,
            if_neg, ne_eq, not_false_iff, if_true] at hc'
          cases b with
          | true =>
            simp only at hc'
            rw [hpres] at hc'
            cases hc'
            exact Nat.le_refl _
          | false =>
            simp only at hc'
            exact create_session_updated_at_mono s1 freshSid now sid c c' hpres hle hc'
    | checkExists sid1 =>
      have hpres := session_exists_conversations_pres s sid1 now sid c hc
      simp only [step] at hc'
      rw [hpres] at hc'
      cases hc'
      exact Nat.le_refl _
    | addMsg sid1 role content tokens msgId =>
      simp only [step] at hc'
      cases ha : ContextManager.add_message s sid1 role content tokens now msgId with
      | error e =>
        rw [ha] at hc'
        simp only at hc'
        rw [hc] at hc'
        cases hc'
        exact Nat.le_refl _
      | ok ms =>
        rw [ha] at hc'
        simp only at hc'
        obtain ⟨conv2, hmap, hupd⟩ :=
          add_message_ok_conversations s sid1 role content tokens now msgId ms.1 ms.2
            (by rw [ha])
        rw [hmap] at hc'
        by_cases hsid : sid = sid1
        · subst hsid
          rw [SMap.update_lookup_self] at hc'
          cases hc'
          rw [hupd]
          exact hle
        · rw [SMap.update_lookup_ne _ _ _ _ hsid, hc] at hc'
          cases hc'
          exact Nat.le_refl _
    | updateCtxTokens sid1 ctx =>
      simp only [step] at hc'
      cases hm : s.conversations sid1 with
      | none =>
        simp only [ContextManager.update_context_tokens, hm] at hc'
        rw [hc] at hc'
        cases hc'
        exact Nat.le_refl _
      | some conv =>
        rw [update_context_tokens_conversations s sid1 ctx now conv hm] at hc'
        by_cases hsid : sid = sid1
        · subst hsid
          rw [SMap.update_lookup_self] at hc'
          cases hc'
          rw [hm] at hc
          cases hc
          exact Nat.le_refl _
        · rw [SMap.update_lookup_ne _ _ _ _ hsid, hc] at hc'
          cases hc'
          exact Nat.le_refl _
    | cleanup =>
      simp only [step, ContextManager.cleanup_old_sessions, ContextManager.dbCleanup,
        ContextManager.memCleanup, hc] at hc'
      split at hc'
      · cases hc'
      · cases hc'
        exact Nat.le_refl _
  · intro s sid role content tokens now msgId msg s' c' ha hc'
    obtain ⟨conv2, hmap, hupd⟩ :=
      add_message_ok_conversations s sid role content tokens now msgId msg s' ha
    rw [hmap, SMap.update_lookup_self] at hc'
    cases hc'
    exact hupd
  · intro s sid ctx now c hm
    refine ⟨{ c with context_tokens := some ctx }, ?_, rfl⟩
    rw [update_context_tokens_conversations s sid ctx now c hm, SMap.update_lookup_self]

/-- A session's in-memory `updated_at` (0 when absent). -/
def updAt (s : ManagerState) (sid : String) : Nat :=
  match s.conversations sid with
  | some c => c.updated_at
  | none => 0

def convC5 : Conversation :=
  { session_id := "s", messages := [], created_at := 5, updated_at := 5 }

def stC5 : ManagerState :=
  { conversations := SMap.empty.update "s" convC5 }

/-- C5 counterexample: an `update_context_tokens` call at time 100 on a
session last updated at time 5 leaves `updated_at` at 5 — this mutating
operation does not bump the timestamp, refuting the claim that every
mutation bumps it. -/
theorem update_context_tokens_no_bump :
    updAt stC5 "s" = 5 ∧
    updAt (ContextManager.update_context_tokens stC5 "s" [1, 2] 100) "s" = 5 ∧
    updAt (ContextManager.update_context_tokens stC5 "s" [1, 2] 100) "s" ≠ 100 := by
  decide

/-- Witness for C5: monotonicity along a concrete cleanup step and
preservation of `updated_at` by a concrete continuation-state update. -/
theorem updated_at_monotone_and_bumped_by_add_witness :
    convC5.updated_at ≤ convC5.updated_at ∧
    ∃ c', (ContextManager.update_context_tokens stC5 "s" [3] 9).conversations "s"
        = some c' ∧ c'.updated_at = convC5.updated_at :=
  ⟨updated_at_monotone_and_bumped_by_add.1 stC5 .cleanup 7 "s" convC5 convC5
     (by decide) (by decide) (by decide),
   updated_at_monotone_and_bumped_by_add.2.2 stC5 "s" [3] 9 convC5 (by decide)⟩

/-- Role name capitalised as in the prompt format. -/
def roleTitle : String → String
  | "user" => "User"
  | "assistant" => "Assistant"
  | "system" => "System"
  | r => r

/-- Rendering in the claim's wording: an optional system-prompt line, then
EVERY message of the context formatted as two parts, role title and
content, then the new user message, then the assistant marker, all
sections joined by single blank lines. -/
def claimRender (history : List Message) (um : String) (sp : Option String) : String :=
  String.intercalate "\n\n"
    ((match sp with
      | some p => ["System: " ++ p]
      | none => []) ++
     history.map (fun m => roleTitle m.role ++ ": " ++ m.content) ++
     ["User: " ++ um, "Assistant:"])

/-- Rendering amended to what the code does: the system section carries a
trailing newline and is skipped when the prompt is empty (falsy), only
user- and assistant-role history messages are rendered (any other role is
silently dropped), then the new user message and the assistant marker,
joined by `"\n\n"`. -/
def amendedRender (history : List Message) (um : String) (sp : Option String) : String :=
  String.intercalate "\n\n"
    ((match sp with
      | some p => if p ≠ "" then ["System: " ++ p ++ "\n"] else []
      | none => []) ++
     history.filterMap (fun m =>
       if m.role = "user" then some ("User: " ++ m.content)
       else if m.role = "assistant" then some ("Assistant: " ++ m.content)
       else none) ++
     ["User: " ++ um, "Assistant:"])

theorem renderHistory_eq_filterMap (l : List Message) :
    ContextManager.renderHistory l = l.filterMap (fun m =>
      if m.role = "user" then some ("User: " ++ m.content)
      else if m.role = "assistant" then some ("Assistant: " ++ m.content)
      else none) := by
  induction l with
  | nil => rfl
  | cons m rest ih =>
    by_cases h1 : m.role = "user"
    · simp [ContextManager.renderHistory, List.filterMap_cons, h1, ih]
    · by_cases h2 : m.role = "assistant" <;>
        simp [ContextManager.renderHistory, List.filterMap_cons, h1, h2, ih]

/-- C6 (amended): `build_prompt_with_context` renders exactly the amended
format — optional system section with its trailing newline, user and
assistant history messages in chronological order with other roles
dropped, the new user message, the assistant marker, joined by blank
lines — and is a pure function of `get_context`'s result and its
arguments (the embedding is state-passing, and the code performs no
writes on this path). -/
theorem build_prompt_renders_amended :
    (∀ (s : ManagerState) (sid um : String) (sp : Option String),
      ContextManager.build_prompt_with_context s sid um sp
        = amendedRender (ContextManager.get_context s sid none) um sp) ∧
    (∀ (s s' : ManagerState) (sid sid' um : String) (sp : Option String),
      ContextManager.get_context s sid none = ContextManager.get_context s' sid' none →
      ContextManager.build_prompt_with_context s sid um sp
        = ContextManager.build_prompt_with_context s' sid' um sp) := by
  constructor
  · intro s sid um sp
    simp only [ContextManager.build_prompt_with_context, amendedRender,
      renderHistory_eq_filterMap]
  · intro s s' sid sid' um sp h
    simp only [ContextManager.build_prompt_with_context, h]

def convC6 : Conversation :=
  { session_id := "s",
    messages := [{ role := "system", content := "be brief", timestamp := 1,
                   tokens := some 2, message_id := "m1" },
                 { role := "user", content := "hi", timestamp := 2,
                   tokens := some 1, message_id := "m2" }],
    created_at := 1, updated_at := 2 }

def stC6 : ManagerState :=
  { conversations := SMap.empty.update "s" convC6 }

/-- C6 counterexample: when the context window holds a system-role
message, the code renders only the user/assistant messages and silently
drops it, so the output differs from the claimed rendering of each
message of `get_context`'s result. -/
theorem build_prompt_skips_system_role :
    ContextManager.build_prompt_with_context stC6 "s" "yo" none
      = "User: hi\n\nUser: yo\n\nAssistant:" ∧
    claimRender (ContextManager.get_context stC6 "s" none) "yo" none
      = "System: be brief\n\nUser: hi\n\nUser: yo\n\nAssistant:" ∧
    ContextManager.build_prompt_with_context stC6 "s" "yo" none
      ≠ claimRender (ContextManager.get_context stC6 "s" none) "yo" none := by
  decide

/-- Witness for C6 at a concrete state, with and without system prompt. -/
theorem build_prompt_renders_amended_witness :
    ContextManager.build_prompt_with_context stC6 "s" "yo" (some "sys")
      = amendedRender (ContextManager.get_context stC6 "s" none) "yo" (some "sys") ∧
    ContextManager.build_prompt_with_context stC6 "s" "yo" none
      = ContextManager.build_prompt_with_context stC6 "s" "yo" none :=
  ⟨build_prompt_renders_amended.1 stC6 "s" "yo" (some "sys"),
   build_prompt_renders_amended.2 stC6 stC6 "s" "s" "yo" none rfl⟩

/-- C7: after `cleanup_old_sessions` at time `now`, every session whose
`updated_at` in each tier that holds it is older than `now − ttl` is
absent from the in-memory map and the durable store; provided the
fast-path cache holds no unexpired entry for it — true of every cache
entry written by this manager, since `create_session` is the only writer
of session entries and gives them expiry `creation + ttl ≤ updated_at +
ttl < now` — `session_exists` then reports false without promoting
anything and `get_session_info` reports absent.  Any session updated at
or after the cutoff keeps its exact conversation in memory and in the
store.  The in-memory deletion comes before the durable-store deletion:
the composite is literally the database sweep applied after the memory
sweep, and the expired session is already invisible in the intermediate
memory-swept state. -/
theorem cleanup_removes_expired (s : ManagerState) (now : Nat) :
    ContextManager.cleanup_old_sessions s now
      = ContextManager.dbCleanup (ContextManager.memCleanup s now) now ∧
    (∀ sid,
      (∀ c, s.conversations sid = some c → c.updated_at < now - s.session_ttl) →
      (∀ c, s.db sid = some c → c.updated_at < now - s.session_ttl) →
      (∀ r e, s.redis = some r → r.sessions sid = some e → e.expiry ≤ now) →
      (ContextManager.memCleanup s now).conversations sid = none ∧
      (ContextManager.cleanup_old_sessions s now).conversations sid = none ∧
      (ContextManager.cleanup_old_sessions s now).db sid = none ∧
      ContextManager.session_exists (ContextManager.cleanup_old_sessions s now) sid now
        = (false, ContextManager.cleanup_old_sessions s now) ∧
      ContextManager.get_session_info (ContextManager.cleanup_old_sessions s now) sid
        = none) ∧
    (∀ sid c, s.conversations sid = some c → ¬ c.updated_at < now - s.session_ttl →
      (ContextManager.cleanup_old_sessions s now).conversations sid = some c) ∧
    (∀ sid c, s.db sid = some c → ¬ c.updated_at < now - s.session_ttl →
      (ContextManager.cleanup_old_sessions s now).db sid = some c) := by
  have hmemdb : (ContextManager.memCleanup s now).db = s.db := rfl
  have hdbconv : ∀ t : ManagerState,
      (ContextManager.dbCleanup t now).conversations = t.conversations := fun _ => rfl
  have hredis : (ContextManager.cleanup_old_sessions s now).redis = s.redis := rfl
  refine ⟨rfl, ?_, ?_, ?_⟩
  · intro sid hm hd hr
    have hmc : (ContextManager.memCleanup s now).conversations sid = none := by
      simp only [ContextManager.memCleanup]
      cases hms : s.conversations sid with
      | none => rfl
      | some c => simp [hm c hms]
    have hcc : (ContextManager.cleanup_old_sessions s now).conversations sid = none := by
      rw [ContextManager.cleanup_old_sessions, hdbconv]
      exact hmc
    have hdbc : (ContextManager.cleanup_old_sessions s now).db sid = none := by
      have httl : (ContextManager.memCleanup s now).session_ttl = s.session_ttl := rfl
      simp only [ContextManager.cleanup_old_sessions, ContextManager.dbCleanup, hmemdb, httl]
      cases hds : s.db sid with
      | none => rfl
      | some c => simp [hd c hds]
    refine ⟨hmc, hcc, hdbc, ?_, ?_⟩
    · simp only [ContextManager.session_exists, hcc]
      rw [hredis]
      cases hrs : s.redis with
      | none =>
        simp only [ContextManager.dbLookupPromote, hdbc]
      | some r =>
        have hrr : redisRead r.sessions sid now = none := by
          simp only [redisRead]
          cases hre : r.sessions sid with
          | none => rfl
          | some e =>
            have := hr r e hrs hre
            simp only [if_neg (by omega : ¬ now < e.expiry)]
        simp only [hrr, ContextManager.dbLookupPromote, hdbc]
    · simp only [ContextManager.get_session_info, hcc]
  · intro sid c hms hfresh
    rw [ContextManager.cleanup_old_sessions, hdbconv]
    simp only [ContextManager.memCleanup, hms]
    simp [hfresh]
  · intro sid c hds hfresh
    have httl : (ContextManager.memCleanup s now).session_ttl = s.session_ttl := rfl
    simp only [ContextManager.cleanup_old_sessions, ContextManager.dbCleanup, hmemdb,
      httl, hds]
    simp [hfresh]

def convC7old : Conversation :=
  { session_id := "a", messages := [], created_at := 0, updated_at := 0 }

def convC7new : Conversation :=
  { session_id := "b", messages := [], created_at := 950, updated_at := 950 }

def stC7 : ManagerState :=
  { session_ttl := 100,
    conversations := (SMap.empty.update "a" convC7old).update "b" convC7new,
    db := (SMap.empty.update "a" convC7old).update "b" convC7new }

/-- Witness for C7 at a concrete state: cleanup at time 1000 with ttl 100
removes the session last updated at 0 from both tiers and makes it
unobservable, and keeps the session updated at 950 intact. -/
theorem cleanup_removes_expired_witness :
    (ContextManager.cleanup_old_sessions stC7 1000).conversations "a" = none ∧
    (ContextManager.cleanup_old_sessions stC7 1000).db "a" = none ∧
    ContextManager.session_exists (ContextManager.cleanup_old_sessions stC7 1000) "a" 1000
      = (false, ContextManager.cleanup_old_sessions stC7 1000) ∧
    ContextManager.get_session_info (ContextManager.cleanup_old_sessions stC7 1000) "a"
      = none ∧
    (ContextManager.cleanup_old_sessions stC7 1000).conversations "b" = some convC7new ∧
    (ContextManager.cleanup_old_sessions stC7 1000).db "b" = some convC7new := by
  have h2 := (cleanup_removes_expired stC7 1000).2.1 "a"
    (by
      intro c hc
      cases (show some convC7old = some c from hc)
      decide)
    (by
      intro c hc
      cases (show some convC7old = some c from hc)
      decide)
    (by
      intro r e hr _
      exact absurd hr (by simp [stC7]))
  have h3 := (cleanup_removes_expired stC7 1000).2.2.1 "b" convC7new
    (by decide) (by decide)
  have h4 := (cleanup_removes_expired stC7 1000).2.2.2 "b" convC7new
    (by decide) (by decide)
  exact ⟨h2.2.1, h2.2.2.1, h2.2.2.2.1, h2.2.2.2.2, h3, h4⟩

/-- The promoting lookup changes no session's resolvability: it only
copies a conversation already held by some tier into memory. -/
theorem session_exists_resolvable (s : ManagerState) (sid : String) (now : Nat)
    (x : String) :
    resolvable ((ContextManager.session_exists s sid now).2) x now
      = resolvable s x now := by
  cases hm : s.conversations sid with
  | some conv => simp [ContextManager.session_exists, hm]
  | none =>
    cases hr : s.redis with
    | none =>
      cases hd : s.db sid with
      | some conv =>
        by_cases hx : x = sid
        · subst hx
          simp [ContextManager.session_exists, ContextManager.dbLookupPromote, hm, hr, hd,
            resolvable, SMap.update_lookup_self]
        · simp [ContextManager.session_exists, ContextManager.dbLookupPromote, hm, hr, hd,
            resolvable, SMap.update_lookup_ne _ _ _ _ hx]
      | none =>
        simp [ContextManager.session_exists, ContextManager.dbLookupPromote, hm, hr, hd]
    | some r =>
      cases hrr : redisRead r.sessions sid now with
      | some conv =>
        by_cases hx : x = sid
        · subst hx
          simp [ContextManager.session_exists, hm, hr, hrr, resolvable,
            SMap.update_lookup_self]
        · simp [ContextManager.session_exists, hm, hr, hrr, resolvable,
            SMap.update_lookup_ne _ _ _ _ hx]
      | none =>
        cases hd : s.db sid with
        | some conv =>
          by_cases hx : x = sid
          · subst hx
            simp [ContextManager.session_exists, ContextManager.dbLookupPromote, hm, hr,
              hrr, hd, resolvable, SMap.update_lookup_self]
          · simp [ContextManager.session_exists, ContextManager.dbLookupPromote, hm, hr,
              hrr, hd, resolvable, SMap.update_lookup_ne _ _ _ _ hx]
        | none =>
          simp [ContextManager.session_exists, ContextManager.dbLookupPromote, hm, hr,
            hrr, hd]

/-- A successful three-tier lookup leaves the session in memory. -/
theorem session_exists_true_promotes (s : ManagerState) (sid : String) (now : Nat)
    (h : (ContextManager.session_exists s sid now).1 = true) :
    ∃ c, ((ContextManager.session_exists s sid now).2).conversations sid = some c := by
  cases hm : s.conversations sid with
  | some conv => exact ⟨conv, by simp [ContextManager.session_exists, hm]⟩
  | none =>
    cases hr : s.redis with
    | none =>
      cases hd : s.db sid with
      | some conv =>
        exact ⟨conv, by simp [ContextManager.session_exists,
          ContextManager.dbLookupPromote, hm, hr, hd, SMap.update_lookup_self]⟩
      | none =>
        exact absurd h (by simp [ContextManager.session_exists,
          ContextManager.dbLookupPromote, hm, hr, hd])
    | some r =>
      cases hrr : redisRead r.sessions sid now with
      | some conv =>
        exact ⟨conv, by simp [ContextManager.session_exists, hm, hr, hrr,
          SMap.update_lookup_self]⟩
      | none =>
        cases hd : s.db sid with
        | some conv =>
          exact ⟨conv, by simp [ContextManager.session_exists,
            ContextManager.dbLookupPromote, hm, hr, hrr, hd, SMap.update_lookup_self]⟩
        | none =>
          exact absurd h (by simp [ContextManager.session_exists,
            ContextManager.dbLookupPromote, hm, hr, hrr, hd])

/-- C8: on a non-empty id that some tier resolves,
`get_or_create_session` returns that id unchanged, its only state change
is the promoting lookup — every id's resolvability is exactly as before,
so no new session comes into existence — and a repeated call returns the
same id again; with an omitted id or an id no tier resolves it returns
the freshly created session id.  (Ids generated by `create_session` are
uuid strings, hence non-empty.) -/
theorem get_or_create_idempotent :
    (∀ (s : ManagerState) (sid : String) (now : Nat) (freshSid : String),
      sid ≠ "" → (ContextManager.session_exists s sid now).1 = true →
      (ContextManager.get_or_create_session s (some sid) now freshSid).1 = sid ∧
      (ContextManager.get_or_create_session s (some sid) now freshSid).2
        = (ContextManager.session_exists s sid now).2 ∧
      (∀ x, resolvable ((ContextManager.get_or_create_session s (some sid) now freshSid).2)
          x now = resolvable s x now) ∧
      (ContextManager.get_or_create_session
          ((ContextManager.get_or_create_session s (some sid) now freshSid).2)
          (some sid) now freshSid).1 = sid) ∧
    (∀ (s : ManagerState) (now : Nat) (freshSid : String),
      (ContextManager.get_or_create_session s none now freshSid).1 = freshSid) ∧
    (∀ (s : ManagerState) (sid : String) (now : Nat) (freshSid : String),
      (ContextManager.session_exists s sid now).1 = false →
      (ContextManager.get_or_create_session s (some sid) now freshSid).1 = freshSid) := by
  refine ⟨?_, ?_, ?_⟩
  · intro s sid now freshSid hne hex
    rcases hse : ContextManager.session_exists s sid now with ⟨b, s1⟩
    rw [hse] at hex
    cases b with
    | false => cases hex
    | true =>
      have hgoc : ContextManager.get_or_create_session s (some sid) now freshSid
          = (sid, s1) := by
        simp [ContextManager.get_or_create_session, hne, hse]
      obtain ⟨c, hc⟩ := session_exists_true_promotes s sid now (by rw [hse])
      rw [hse] at hc
      have hc1 : s1.conversations sid = some c := hc
      refine ⟨by rw [hgoc], by simp only [hgoc, hse], ?_, ?_⟩
      · intro x
        have hres := session_exists_resolvable s sid now x
        rw [hse] at hres
        rw [hgoc]
        exact hres
      · rw [hgoc]
        simp [ContextManager.get_or_create_session, hne,
          ContextManager.session_exists, hc1]
  · intro s now freshSid
    rfl
  · intro s sid now freshSid hex
    by_cases hne : sid = ""
    · subst hne
      simp only [ContextManager.get_or_create_session, ne_eq, not_true_eq_false,
        if_false]
      rfl
    · rcases hse : ContextManager.session_exists s sid now with ⟨b, s1⟩
      rw [hse] at hex
      cases b with
      | true => cases hex
      | false =>
        simp only [ContextManager.get_or_create_session, hne, hse, ne_eq,
          not_false_iff, if_true]
        rfl

def stC8 : ManagerState :=
  { conversations := SMap.empty.update "s"
      { session_id := "s", messages := [], created_at := 1, updated_at := 1 } }

/-- Witness for C8: a resolvable id is returned unchanged; an unknown id
yields the fresh one. -/
theorem get_or_create_idempotent_witness :
    (ContextManager.get_or_create_session stC8 (some "s") 5 "fresh").1 = "s" ∧
    (ContextManager.get_or_create_session stC8 (some "zz") 5 "fresh").1 = "fresh" :=
  ⟨(get_or_create_idempotent.1 stC8 "s" 5 "fresh" (by decide) (by decide)).1,
   get_or_create_idempotent.2.2 stC8 "zz" 5 "fresh" (by decide)⟩

/-- A session id held by no tier: absent from memory and the durable
store, and invisible in the fast-path cache — neither a session entry nor
a continuation-token entry for it is readable. -/
def unknownEverywhere (s : ManagerState) (sid : String) (now : Nat) : Prop :=
  s.conversations sid = none ∧ s.db sid = none ∧
  (∀ r, s.redis = some r →
    redisRead r.sessions sid now = none ∧ redisRead r.tokens sid now = none)

/-- C9: on an id held by no tier, every read degrades to empty or absent
without error or mutation: `get_context` returns the empty sequence for
every budget, `get_session_info` and `get_context_tokens` return absent,
and `session_exists` returns false with the state exactly as it was.
(`get_context`, `get_session_info` and `get_context_tokens` are pure
state readers in the embedding because the code performs no writes on
those paths; all four operations are total — only `add_message`
raises.) -/
theorem reads_tolerant_on_unknown (s : ManagerState) (sid : String) (now : Nat)
    (h : unknownEverywhere s sid now) :
    (∀ mt, ContextManager.get_context s sid mt = []) ∧
    ContextManager.get_session_info s sid = none ∧
    ContextManager.get_context_tokens s sid now = none ∧
    ContextManager.session_exists s sid now = (false, s) := by
  obtain ⟨hm, hd, hr⟩ := h
  refine ⟨?_, ?_, ?_, ?_⟩
  · intro mt
    simp [ContextManager.get_context, hm]
  · simp [ContextManager.get_session_info, hm]
  · cases hrs : s.redis with
    | none => simp [ContextManager.get_context_tokens, hm, hrs]
    | some r => simp [ContextManager.get_context_tokens, hm, hrs, (hr r hrs).2]
  · cases hrs : s.redis with
    | none =>
      simp [ContextManager.session_exists, ContextManager.dbLookupPromote, hm, hrs, hd]
    | some r =>
      simp [ContextManager.session_exists, ContextManager.dbLookupPromote, hm, hrs,
        (hr r hrs).1, hd]

def redisC9 : RedisState := { sessions := SMap.empty, tokens := SMap.empty }

def stC9 : ManagerState :=
  { conversations := SMap.empty.update "s"
      { session_id := "s", messages := [], created_at := 1, updated_at := 1 },
    redis := some redisC9 }

/-- Witness for C9 at a concrete state (cache present but empty). -/
theorem reads_tolerant_on_unknown_witness :
    ContextManager.get_context stC9 "zz" none = [] ∧
    ContextManager.get_session_info stC9 "zz" = none ∧
    ContextManager.get_context_tokens stC9 "zz" 5 = none ∧
    ContextManager.session_exists stC9 "zz" 5 = (false, stC9) :=
  have h := reads_tolerant_on_unknown stC9 "zz" 5
    ⟨rfl, rfl, fun r hr => by cases hr; exact ⟨rfl, rfl⟩⟩
  ⟨h.1 none, h.2.1, h.2.2.1, h.2.2.2⟩

theorem update_context_tokens_redis_of_none (s : ManagerState) (sid : String)
    (ctx : List Nat) (now : Nat) (hr : s.redis = none) :
    (ContextManager.update_context_tokens s sid ctx now).redis = none := by
  cases hm : s.conversations sid <;>
    simp [ContextManager.update_context_tokens, hm, hr, ContextManager.save_conversation]

/-- C10: after `update_context_tokens` with the empty list on a live
session, the empty continuation state is stored in the in-memory
conversation, but `get_context_tokens` never serves it from memory — the
presence test `if conv.context_tokens:` treats the empty list as unset —
and instead falls through to the fast-path cache (whose serialized
`"[]"` payload is truthy and is returned when the mirrored entry is
live), else to absent; in particular with no cache configured the result
is `none`, indistinguishable from a never-set state. -/
theorem empty_context_tokens_fall_through (s : ManagerState) (sid : String)
    (conv : Conversation) (now now2 : Nat)
    (h : s.conversations sid = some conv) :
    (∃ conv', (ContextManager.update_context_tokens s sid [] now).conversations sid
        = some conv' ∧ conv'.context_tokens = some []) ∧
    ContextManager.get_context_tokens
        (ContextManager.update_context_tokens s sid [] now) sid now2
      = (match (ContextManager.update_context_tokens s sid [] now).redis with
         | some r => redisRead r.tokens sid now2
         | none => none) ∧
    (s.redis = none →
      ContextManager.get_context_tokens
        (ContextManager.update_context_tokens s sid [] now) sid now2 = none) := by
  have hconv' : (ContextManager.update_context_tokens s sid [] now).conversations sid
      = some { conv with context_tokens := some [] } := by
    rw [update_context_tokens_conversations s sid [] now conv h]
    exact SMap.update_lookup_self _ _ _
  have hmain : ContextManager.get_context_tokens
      (ContextManager.update_context_tokens s sid [] now) sid now2
      = (match (ContextManager.update_context_tokens s sid [] now).redis with
         | some r => redisRead r.tokens sid now2
         | none => none) := by
    simp [ContextManager.get_context_tokens, hconv']
  refine ⟨⟨_, hconv', rfl⟩, hmain, ?_⟩
  intro hrn
  rw [hmain, update_context_tokens_redis_of_none s sid [] now hrn]

def convC10 : Conversation :=
  { session_id := "s", messages := [], created_at := 1, updated_at := 1 }

def stC10 : ManagerState :=
  { conversations := SMap.empty.update "s" convC10 }

/-- Witness for C10 at a concrete cache-less state. -/
theorem empty_context_tokens_fall_through_witness :
    (∃ conv', (ContextManager.update_context_tokens stC10 "s" [] 3).conversations "s"
        = some conv' ∧ conv'.context_tokens = some []) ∧
    ContextManager.get_context_tokens
        (ContextManager.update_context_tokens stC10 "s" [] 3) "s" 4
      = (match (ContextManager.update_context_tokens stC10 "s" [] 3).redis with
         | some r => redisRead r.tokens "s" 4
         | none => none) ∧
    (stC10.redis = none →
      ContextManager.get_context_tokens
        (ContextManager.update_context_tokens stC10 "s" [] 3) "s" 4 = none) :=
  empty_context_tokens_fall_through stC10 "s" convC10 3 4 (by decide)

end Dominus
